import Mathlib

/-!
Verification of the `depth_map_snr` routine of
`tutorials/object_gcr_2_lensing_cuts.ipynb` (DC2-analysis).

The function is embedded shallowly:

* catalog values (which may be IEEE NaN) are `Option ℚ`, with `none` for NaN;
* the external HEALPix projection `hp.ang2pix` is an opaque parameter
  `pixfn : RQ → RQ → ℕ` (the spec only requires that it lands in
  `0 .. 12*nside^2 - 1`);
* `binned_statistic` lives in `utils/cic.py`, which is not part of the
  sources here; its binning behaviour is modelled from the spec;
* `np.nanmedian` is the median of the non-NaN values, undefined (NaN,
  modelled as `none`) when no non-NaN value exists.

The four input columns are zipped into rows; the boolean masks
`mags[mask]`, `snr[mask]` of the source are modelled as selecting the
`mags`/`snr` entries of the rows retained by the `good` filter, which is the
behaviour of the source whenever the mask shapes line up (numpy refuses a
boolean mask whose length differs from the indexed array, so no silent
misalignment is possible).
-/

/-- A catalog value: `none` models IEEE NaN, `some q` a finite real. -/
abbrev RQ := Option ℚ

/-- Embedding of `np.isnan`. -/
def isnan (x : RQ) : Bool := x.isNone

/-- One detection: the entries of the four parallel input columns at one index. -/
structure Row where
  ra : RQ
  dec : RQ
  mag : RQ
  snr : RQ
deriving DecidableEq

/-- Zip the four parallel input columns into rows (stops at the shortest). -/
def zip4 : List RQ → List RQ → List RQ → List RQ → List Row
  | a :: as, b :: bs, c :: cs, d :: ds => ⟨a, b, c, d⟩ :: zip4 as bs cs ds
  | _, _, _, _ => []

/-- Source: `good = np.logical_or(np.logical_not(np.isnan(ra)), np.logical_not(np.isnan(dec)))`. -/
def good (r : Row) : Bool := (!(isnan r.ra)) || (!(isnan r.dec))

/-- The rows kept by the `good` filter (`ra[good]`, `dec[good]`, and the
matching `mags`/`snr` entries). -/
def retained (ra dec mags snr : List RQ) : List Row :=
  (zip4 ra dec mags snr).filter good

/-- Modelled from the spec: the binning of `binned_statistic` from
`utils/cic.py` (that file is not among the sources): 30 fixed bins over the
magnitude range [22, 28), bin `i` covering `[22 + i/5, 22 + (i+1)/5)`;
a NaN or out-of-range magnitude falls in no bin. -/
def binIndex (m : RQ) : Option ℕ :=
  match m with
  | none => none
  | some q =>
    (List.range 30).find? fun i =>
      decide (22 + (i : ℚ) / 5 ≤ q ∧ q < 22 + ((i : ℚ) + 1) / 5)

/-- The non-NaN values of a column, sorted (helper for `nanmedian`). -/
def validSorted (xs : List RQ) : List ℚ :=
  List.insertionSort (· ≤ ·) (xs.filterMap id)

/-- Embedding of `np.nanmedian`: the median of the non-NaN values, `none` (NaN) when there
is no non-NaN value.  For an even count it averages the two middle values. -/
def nanmedian (xs : List RQ) : RQ :=
  if (validSorted xs).length = 0 then none
  else if (validSorted xs).length % 2 = 1 then
    some ((validSorted xs).getD ((validSorted xs).length / 2) 0)
  else
    some (((validSorted xs).getD ((validSorted xs).length / 2 - 1) 0 +
           (validSorted xs).getD ((validSorted xs).length / 2) 0) / 2)

/-- Modelled from the spec: `median_snr = binned_statistic(mags[mask], snr[mask],
np.nanmedian, nbins=30, range=(22,28))`, read at bin `i` — the nanmedian of the
snr of the rows whose magnitude falls in bin `i`. -/
def median_snr (rows : List Row) (i : ℕ) : RQ :=
  nanmedian ((rows.filter fun r => binIndex r.mag == some i).map fun r => r.snr)

/-- Value of `np.linspace lo hi num` at index `i`. -/
def linspace (lo hi : ℚ) (num i : ℕ) : ℚ :=
  lo + (i : ℚ) * ((hi - lo) / ((num : ℚ) - 1))

/-- Source: `bin_centers = np.linspace(22+6/30., 28-6/30., 30.)`. -/
def bin_centers (i : ℕ) : ℚ := linspace (22 + 6 / 30) (28 - 6 / 30) 30 i

/-- The spec's bin-center formula, for comparison with the source's
`bin_centers`: the centers `22 + 6/30 * (i + 1/2)` of the 30 bins
partitioning [22, 28). -/
def specBinCenter (i : ℕ) : ℚ := 22 + 6 / 30 * ((i : ℚ) + 1 / 2)

/-- The compressed pairs `(bin_centers[mask2][k], fabs(median_snr[mask2][k] - snr_threshold))`
where `mask2` keeps the bins with a non-NaN median, in bin order. -/
def candidates (thr : ℚ) (rows : List Row) : List (ℚ × ℚ) :=
  (List.range 30).filterMap fun i =>
    (median_snr rows i).map fun m => (bin_centers i, |m - thr|)

/-- Embedding of `np.argmin` over the second components: the element with minimal second
component, the earliest one on ties. -/
def pickMinSnd : List (ℚ × ℚ) → Option (ℚ × ℚ)
  | [] => none
  | p :: ps =>
    match pickMinSnd ps with
    | none => some p
    | some q => if q.2 < p.2 then some q else some p

/-- Body of the per-pixel loop: `bin_centers[mask2][argmin(fabs(median_snr[mask2] - thr))]`
when some bin has a non-NaN median, `0` otherwise. -/
def pixelDepth (thr : ℚ) (rows : List Row) : ℚ :=
  match pickMinSnd (candidates thr rows) with
  | some c => c.1
  | none => 0

/-- The retained rows that fall in pixel `p` (the mask `px == pix_nums`). -/
def rowsAt (pixfn : RQ → RQ → ℕ) (ra dec mags snr : List RQ) (p : ℕ) : List Row :=
  (retained ra dec mags snr).filter fun r => pixfn r.ra r.dec == p

/-- Shallow embedding of `depth_map_snr(ra, dec, mags, snr, snr_threshold, nside)`.
`pixfn` stands for the opaque external projection `hp.ang2pix(nside, …)`.
The output is `map_out`: a dense list of `12 * nside^2` entries, `0` for a
pixel with no retained rows, and the per-pixel depth otherwise. -/
def depth_map_snr (pixfn : RQ → RQ → ℕ) (ra dec mags snr : List RQ)
    (thr : ℚ) (nside : ℕ) : List ℚ :=
  (List.range (12 * nside ^ 2)).map fun p =>
    if 0 < (rowsAt pixfn ra dec mags snr p).length then
      pixelDepth thr (rowsAt pixfn ra dec mags snr p)
    else 0

/-- The spec's error taxonomy for `compute_depth_map`. -/
inductive DepthError where
  | shapeMismatch
  | invalidParameter
deriving DecidableEq

/-- Modelled from the spec: the `compute_depth_map` contract of §4.1/§7 —
mismatched column lengths fail with `ShapeMismatch`, a non-positive `nside`
fails with `InvalidParameter`, and a failure returns no partial map.  The
notebook function itself contains no explicit checks; these failures surface
as numpy/healpy exceptions, whose checking code is not part of the sources. -/
def compute_depth_map (pixfn : RQ → RQ → ℕ) (ra dec mags snr : List RQ)
    (thr : ℚ) (nside : ℕ) : Except DepthError (List ℚ) :=
  if ra.length = dec.length ∧ dec.length = mags.length ∧ mags.length = snr.length then
    if 0 < nside then .ok (depth_map_snr pixfn ra dec mags snr thr nside)
    else .error .invalidParameter
  else .error .shapeMismatch

/-- A concrete stand-in for the external `ang2pix`, used in concrete evaluations. -/
def pix3 : RQ → RQ → ℕ := fun _ _ => 3

/-! ## Helper lemmas -/

/-- Reading an entry of a `map` over `List.range'`. -/
lemma getD_range'_map (f : ℕ → ℚ) (k : ℕ) : ∀ a p : ℕ,
    ((List.range' a k).map f).getD p 0 = if p < k then f (a + p) else 0 := by
  induction k with
  | zero => intro a p; simp
  | succ n ih =>
    intro a p
    rw [List.range'_succ, List.map_cons]
    cases p with
    | zero => simp
    | succ q =>
      rw [List.getD_cons_succ, ih (a + 1) q]
      have h1 : a + 1 + q = a + (q + 1) := by omega
      rw [h1]
      by_cases hq : q < n
      · rw [if_pos hq, if_pos (by omega)]
      · rw [if_neg hq, if_neg (by omega)]

/-- Reading an entry of a `map` over `List.range`. -/
lemma getD_range_map (f : ℕ → ℚ) (n p : ℕ) :
    ((List.range n).map f).getD p 0 = if p < n then f p else 0 := by
  rw [List.range_eq_range', getD_range'_map]
  simp

/-- The output list of `depth_map_snr` has `12 * nside^2` entries. -/
lemma depth_map_snr_len (pixfn : RQ → RQ → ℕ) (ra dec mags snr : List RQ)
    (thr : ℚ) (nside : ℕ) :
    (depth_map_snr pixfn ra dec mags snr thr nside).length = 12 * nside ^ 2 := by
  simp [depth_map_snr]

/-- Reading one entry of the `depth_map_snr` output. -/
lemma depth_map_snr_getD (pixfn : RQ → RQ → ℕ) (ra dec mags snr : List RQ)
    (thr : ℚ) (nside p : ℕ) :
    (depth_map_snr pixfn ra dec mags snr thr nside).getD p 0 =
      if p < 12 * nside ^ 2 then
        (if 0 < (rowsAt pixfn ra dec mags snr p).length then
          pixelDepth thr (rowsAt pixfn ra dec mags snr p)
        else 0)
      else 0 := by
  unfold depth_map_snr
  exact getD_range_map _ _ _

/-- The element picked by `pickMinSnd` belongs to the list. -/
lemma pickMinSnd_mem : ∀ (l : List (ℚ × ℚ)) (p : ℚ × ℚ), pickMinSnd l = some p → p ∈ l := by
  intro l
  induction l with
  | nil => intro p h; cases h
  | cons a t ih =>
    intro p h
    unfold pickMinSnd at h
    split at h
    · injection h with h2
      subst h2
      exact List.mem_cons_self a t
    · split at h
      · injection h with h2
        subst h2
        next q hq _ => exact List.mem_cons_of_mem a (ih q hq)
      · injection h with h2
        subst h2
        exact List.mem_cons_self a t

/-- On a nonempty list `pickMinSnd` never returns `none`. -/
lemma pickMinSnd_cons_ne_none (a : ℚ × ℚ) (t : List (ℚ × ℚ)) :
    pickMinSnd (a :: t) ≠ none := by
  unfold pickMinSnd
  split
  · exact Option.some_ne_none a
  · split
    · exact Option.some_ne_none _
    · exact Option.some_ne_none _

/-- The element picked by `pickMinSnd` has minimal second component. -/
lemma pickMinSnd_le : ∀ (l : List (ℚ × ℚ)) (p : ℚ × ℚ), pickMinSnd l = some p →
    ∀ q ∈ l, p.2 ≤ q.2 := by
  intro l
  induction l with
  | nil => intro p h; cases h
  | cons a t ih =>
    intro p h q hq
    unfold pickMinSnd at h
    split at h
    · next hnone =>
      injection h with h2
      subst h2
      rcases List.mem_cons.mp hq with rfl | hq'
      · exact le_refl _
      · cases t with
        | nil => cases hq'
        | cons b t2 => exact absurd hnone (pickMinSnd_cons_ne_none b t2)
    · next q0 hq0 =>
      split at h
      · next hlt =>
        injection h with h2
        subst h2
        rcases List.mem_cons.mp hq with rfl | hq'
        · exact le_of_lt hlt
        · exact ih q0 hq0 q hq'
      · next hnlt =>
        injection h with h2
        subst h2
        rcases List.mem_cons.mp hq with rfl | hq'
        · exact le_refl _
        · exact le_trans (le_of_not_lt hnlt) (ih q0 hq0 q hq')

/-- Membership in `candidates`: exactly the bins with a non-NaN median,
paired with their `bin_centers` value and distance of the median to `thr`. -/
lemma mem_candidates (thr : ℚ) (rows : List Row) (q : ℚ × ℚ) :
    q ∈ candidates thr rows ↔
      ∃ j, j < 30 ∧ ∃ m, median_snr rows j = some m ∧ q = (bin_centers j, |m - thr|) := by
  unfold candidates
  rw [List.mem_filterMap]
  constructor
  · rintro ⟨j, hj, hq⟩
    rw [List.mem_range] at hj
    rw [Option.map_eq_some'] at hq
    rcases hq with ⟨m, hm, hq⟩
    exact ⟨j, hj, m, hm, hq.symm⟩
  · rintro ⟨j, hj, m, hm, rfl⟩
    refine ⟨j, List.mem_range.mpr hj, ?_⟩
    rw [hm]
    rfl

/-- Replacing `median_snr` by a table with the same values on `0..29`
inside `candidates`. -/
lemma candidates_eq_table (thr : ℚ) (rows : List Row) (T : ℕ → RQ)
    (hT : ∀ b, b < 30 → median_snr rows b = T b) :
    candidates thr rows =
      (List.range 30).filterMap fun i => (T i).map fun m => (bin_centers i, |m - thr|) := by
  unfold candidates
  apply List.filterMap_congr
  intro a ha
  rw [hT a (List.mem_range.mp ha)]

/-- The `good` filter keeps a row iff its ra is not NaN or its dec is not NaN. -/
lemma good_iff (r : Row) : good r = true ↔ (r.ra ≠ none ∨ r.dec ≠ none) := by
  obtain ⟨a, b, c, d⟩ := r
  cases a <;> cases b <;> simp [good, isnan]

/-- Every bin median of an empty row list is undefined. -/
lemma median_snr_nil (b : ℕ) : median_snr [] b = none := rfl

/-- A bin with a defined median forces the row list to be nonempty. -/
lemma length_pos_of_median (rows : List Row) (b : ℕ) (h : median_snr rows b ≠ none) :
    0 < rows.length := by
  cases rows with
  | cons x t => simp
  | nil => exact absurd (median_snr_nil b) h

/-- Applied to an in-order `filterMap` of bins, `pickMinSnd` returns the entry of the
least bin index among those minimising the second component. -/
lemma pickMinSnd_filterMap_range' :
    ∀ (n a : ℕ) (f : ℕ → Option (ℚ × ℚ)) (j : ℕ) (cj : ℚ × ℚ),
      a ≤ j → j < a + n → f j = some cj →
      (∀ b, a ≤ b → b < a + n → ∀ cb, f b = some cb →
        cj.2 ≤ cb.2 ∧ (cb.2 = cj.2 → j ≤ b)) →
      pickMinSnd ((List.range' a n).filterMap f) = some cj := by
  intro n
  induction n with
  | zero =>
    intro a f j cj haj hjn hfj hmin
    exact absurd hjn (by omega)
  | succ m ih =>
    intro a f j cj haj hjn hfj hmin
    rw [List.range'_succ, List.filterMap_cons]
    cases hfa : f a with
    | none =>
      have hja : a + 1 ≤ j := by
        rcases Nat.eq_or_lt_of_le haj with rfl | h
        · rw [hfa] at hfj; cases hfj
        · omega
      exact ih (a + 1) f j cj hja (by omega) hfj
        (fun b hb1 hb2 cb hcb => hmin b (by omega) (by omega) cb hcb)
    | some ca =>
      rcases Nat.eq_or_lt_of_le haj with rfl | hlt
      · rw [hfa] at hfj
        injection hfj with h2
        subst h2
        unfold pickMinSnd
        cases hrest : pickMinSnd ((List.range' (a + 1) m).filterMap f) with
        | none => rfl
        | some q =>
          have hqmem := pickMinSnd_mem _ _ hrest
          rcases List.mem_filterMap.mp hqmem with ⟨b, hbmem, hfb⟩
          rcases List.mem_range'.mp hbmem with ⟨i, hi, hbi⟩
          have hle := (hmin b (by omega) (by omega) q hfb).1
          show (if q.2 < ca.2 then some q else some ca) = some ca
          rw [if_neg (not_lt.mpr hle)]
      · have hca := hmin a (le_refl a) (by omega) ca hfa
        have hstrict : cj.2 < ca.2 := by
          rcases lt_or_eq_of_le hca.1 with h | h
          · exact h
          · exact absurd (hca.2 h.symm) (by omega)
        have hrec := ih (a + 1) f j cj (by omega) (by omega) hfj
          (fun b hb1 hb2 cb hcb => hmin b (by omega) (by omega) cb hcb)
        unfold pickMinSnd
        simp only [hrec]
        rw [if_pos hstrict]

/-- Dropping a NaN head leaves `validSorted` unchanged. -/
lemma validSorted_cons_none (xs : List RQ) : validSorted (none :: xs) = validSorted xs := by
  simp [validSorted]

/-- The values of `validSorted` are the non-NaN values of the input. -/
lemma mem_validSorted (xs : List RQ) (q : ℚ) : q ∈ validSorted xs ↔ some q ∈ xs := by
  unfold validSorted
  rw [(List.perm_insertionSort _ _).mem_iff, List.mem_filterMap]
  constructor
  · rintro ⟨a, ha, hid⟩
    rw [show a = some q from hid] at ha
    exact ha
  · intro h
    exact ⟨some q, h, rfl⟩

/-- A NaN entry does not change `nanmedian`. -/
lemma nanmedian_cons_none (xs : List RQ) : nanmedian (none :: xs) = nanmedian xs := by
  unfold nanmedian
  rw [validSorted_cons_none]

/-- The value `nanmedian xs` is defined exactly when some non-NaN value is present. -/
lemma nanmedian_ne_none_iff (xs : List RQ) : nanmedian xs ≠ none ↔ ∃ q : ℚ, some q ∈ xs := by
  unfold nanmedian
  by_cases h : (validSorted xs).length = 0
  · rw [if_pos h]
    rw [List.length_eq_zero] at h
    constructor
    · intro hc
      exact absurd rfl hc
    · rintro ⟨q, hq⟩
      rw [← mem_validSorted] at hq
      rw [h] at hq
      cases hq
  · rw [if_neg h]
    constructor
    · intro _
      have hne : validSorted xs ≠ [] := by
        intro hh
        exact h (by rw [hh]; rfl)
      rcases List.exists_mem_of_ne_nil _ hne with ⟨q, hq⟩
      exact ⟨q, (mem_validSorted xs q).mp hq⟩
    · intro _
      split
      · exact Option.some_ne_none _
      · exact Option.some_ne_none _

/-- Each pixel entry is `0` or one of the 30 `bin_centers` values. -/
lemma pixelDepth_cases (thr : ℚ) (rows : List Row) :
    pixelDepth thr rows = 0 ∨ ∃ j, j < 30 ∧ pixelDepth thr rows = bin_centers j := by
  unfold pixelDepth
  cases hp : pickMinSnd (candidates thr rows) with
  | none =>
    left
    rfl
  | some c =>
    right
    rcases (mem_candidates thr rows c).mp (pickMinSnd_mem _ _ hp) with ⟨j, hj, m, hm, hcq⟩
    refine ⟨j, hj, ?_⟩
    rw [hcq]

/-! ## Claim theorems -/

/-- C1: for every input (any lengths, any values, any pixel function and
`nside`), the map returned by `depth_map_snr` has exactly `12 * nside^2`
entries, and every entry is either `0` or one of the 30 fixed values of the
function's `bin_centers` array. -/
theorem depth_map_snr_length_and_values (pixfn : RQ → RQ → ℕ) (ra dec mags snr : List RQ)
    (thr : ℚ) (nside : ℕ) :
    (depth_map_snr pixfn ra dec mags snr thr nside).length = 12 * nside ^ 2 ∧
    ∀ p : ℕ, (depth_map_snr pixfn ra dec mags snr thr nside).getD p 0 = 0 ∨
      ∃ j, j < 30 ∧ (depth_map_snr pixfn ra dec mags snr thr nside).getD p 0 = bin_centers j := by
  refine ⟨depth_map_snr_len pixfn ra dec mags snr thr nside, ?_⟩
  intro p
  rw [depth_map_snr_getD]
  by_cases hp : p < 12 * nside ^ 2
  · rw [if_pos hp]
    by_cases he : 0 < (rowsAt pixfn ra dec mags snr p).length
    · rw [if_pos he]
      exact pixelDepth_cases thr _
    · rw [if_neg he]
      left
      rfl
  · rw [if_neg hp]
    left
    rfl

/-- C2 (code bug): the source's `bin_centers = np.linspace(22+6/30, 28-6/30, 30)`
evaluates to `22.2 + i*(28/145)` (spacing `28/145 ≈ 0.193`), which differs at
every index from the claimed evenly spaced centers `22 + 6/30*(i+1/2) = 22.1 + 0.2*i`
of the 30 bins partitioning [22, 28). -/
theorem bin_centers_ne_spec_centers :
    bin_centers 0 = 111/5 ∧ specBinCenter 0 = 221/10 ∧ bin_centers 0 ≠ specBinCenter 0 ∧
    bin_centers 10 = 3499/145 ∧ specBinCenter 10 = 241/10 ∧ bin_centers 10 ≠ specBinCenter 10 ∧
    bin_centers 29 = 139/5 ∧ specBinCenter 29 = 279/10 ∧
    bin_centers 1 - bin_centers 0 = 28/145 ∧ specBinCenter 1 - specBinCenter 0 = 1/5 ∧
    (28/145 : ℚ) ≠ 1/5 := by
  norm_num [bin_centers, specBinCenter, linspace]

/-- C3: the row filter keeps a row iff its ra is not NaN OR its dec is not NaN;
only rows with both coordinates NaN are dropped, so a row with exactly one valid
coordinate is kept. -/
theorem mem_retained_iff (ra dec mags snr : List RQ) (r : Row) :
    r ∈ retained ra dec mags snr ↔
      r ∈ zip4 ra dec mags snr ∧ (r.ra ≠ none ∨ r.dec ≠ none) := by
  unfold retained
  rw [List.mem_filter, good_iff]

/-- C8: empty input arrays do not fail: the result is the all-zero map with
`12 * nside^2` entries. -/
theorem depth_map_snr_empty_input (pixfn : RQ → RQ → ℕ) (thr : ℚ) (nside : ℕ) :
    depth_map_snr pixfn [] [] [] [] thr nside = List.replicate (12 * nside ^ 2) 0 := by
  have h : ∀ p, rowsAt pixfn [] [] [] [] p = [] := fun p => rfl
  unfold depth_map_snr
  rw [List.eq_replicate_iff]
  constructor
  · simp
  · intro b hb
    rcases List.mem_map.mp hb with ⟨p, hp, hbe⟩
    have hb2 : (if 0 < (rowsAt pixfn [] [] [] [] p).length then
        pixelDepth thr (rowsAt pixfn [] [] [] [] p) else 0) = b := hbe
    rw [h p] at hb2
    simpa using hb2.symm

/-- C5: mismatched input lengths fail with `ShapeMismatch`; `nside = 0` (the
only non-positive natural) fails with `InvalidParameter`; a failing call
returns no partial map. -/
theorem compute_depth_map_errors (pixfn : RQ → RQ → ℕ) (ra dec mags snr : List RQ)
    (thr : ℚ) (nside : ℕ) :
    (¬(ra.length = dec.length ∧ dec.length = mags.length ∧ mags.length = snr.length) →
      compute_depth_map pixfn ra dec mags snr thr nside = .error .shapeMismatch) ∧
    ((ra.length = dec.length ∧ dec.length = mags.length ∧ mags.length = snr.length) →
      nside = 0 →
      compute_depth_map pixfn ra dec mags snr thr nside = .error .invalidParameter) ∧
    (∀ e : DepthError, compute_depth_map pixfn ra dec mags snr thr nside = .error e →
      ∀ m : List ℚ, compute_depth_map pixfn ra dec mags snr thr nside ≠ .ok m) := by
  refine ⟨?_, ?_, ?_⟩
  · intro h
    unfold compute_depth_map
    rw [if_neg h]
  · intro h h0
    unfold compute_depth_map
    rw [if_pos h, if_neg (by omega)]
  · intro e he m hm
    rw [he] at hm
    exact Except.noConfusion hm

/-- Witness for C5 at concrete inputs: a length-mismatched call and an
`nside = 0` call. -/
theorem compute_depth_map_errors_witness :
    compute_depth_map pix3 [some 1] [] [] [] 10 1 = .error .shapeMismatch ∧
    compute_depth_map pix3 [] [] [] [] 10 0 = .error .invalidParameter :=
  ⟨(compute_depth_map_errors pix3 [some 1] [] [] [] 10 1).1 (by simp),
   (compute_depth_map_errors pix3 [] [] [] [] 10 0).2.1 (by simp) rfl⟩

/-- The per-bin medians for the single C6 row (magnitude 24, snr 10):
only bin 10 (the bin `[24, 24.2)` containing 24) has a defined median. -/
lemma median_table_c6 : ∀ b, b < 30 →
    median_snr [⟨some 10, some 20, some 24, some 10⟩] b =
      (if b = 10 then some 10 else none) := by
  intro b hb
  interval_cases b <;> with_unfolding_all decide

/-- The list `List.range 30` written out as a literal. -/
lemma range_30_lit : List.range 30 =
    [0, 1, 2, 3, 4, 5, 6, 7, 8, 9, 10, 11, 12, 13, 14,
     15, 16, 17, 18, 19, 20, 21, 22, 23, 24, 25, 26, 27, 28, 29] := by
  decide

/-- The candidate list for the single C6 row. -/
lemma candidates_c6 : candidates 10 [⟨some 10, some 20, some 24, some 10⟩] =
    [(bin_centers 10, 0)] := by
  rw [candidates_eq_table 10 _ _ median_table_c6, range_30_lit]
  norm_num [List.filterMap_cons]

/-- The depth of the single populated C6 pixel. -/
lemma pixelDepth_c6 : pixelDepth 10 [⟨some 10, some 20, some 24, some 10⟩] =
    bin_centers 10 := by
  unfold pixelDepth
  rw [candidates_c6]
  simp [pickMinSnd]

lemma rowsAt_c6 : rowsAt pix3 [some 10] [some 20] [some 24] [some 10] 3 =
    [⟨some 10, some 20, some 24, some 10⟩] := by
  with_unfolding_all decide

lemma rowsAt_c6_empty : ∀ p, p ≠ 3 →
    rowsAt pix3 [some 10] [some 20] [some 24] [some 10] p = [] := by
  intro p hp
  have hret : retained [some 10] [some 20] [some 24] [some 10] =
      [⟨some 10, some 20, some 24, some 10⟩] := by with_unfolding_all decide
  unfold rowsAt
  rw [hret]
  simp [pix3, List.filter_cons, Ne.symm hp]

lemma entry_c6_other : ∀ p, p ≠ 3 →
    (depth_map_snr pix3 [some 10] [some 20] [some 24] [some 10] 10 1).getD p 0 = 0 := by
  intro p hp
  rw [depth_map_snr_getD]
  by_cases h12 : p < 12 * 1 ^ 2
  · rw [if_pos h12, rowsAt_c6_empty p hp]
    norm_num
  · rw [if_neg h12]

/-- C6 (code bug): for `ra=[10], dec=[20], mags=[24], snr=[10]`,
`snr_threshold=10`, `nside=1` (with a pixel function sending the row to
pixel 3), the map has 12 entries and every entry except pixel 3 is 0 — but
the populated pixel's depth is `bin_centers[10] = 3499/145 ≈ 24.131`, which
is neither the claimed value `24.1` nor the `bin_centers` value closest to
the row's magnitude 24 (that is `bin_centers 9`). -/
theorem depth_map_snr_single_row_scenario :
    (depth_map_snr pix3 [some 10] [some 20] [some 24] [some 10] 10 1).length = 12 ∧
    (depth_map_snr pix3 [some 10] [some 20] [some 24] [some 10] 10 1).getD 3 0 = 3499/145 ∧
    (depth_map_snr pix3 [some 10] [some 20] [some 24] [some 10] 10 1).getD 0 0 = 0 ∧
    (depth_map_snr pix3 [some 10] [some 20] [some 24] [some 10] 10 1).getD 1 0 = 0 ∧
    (depth_map_snr pix3 [some 10] [some 20] [some 24] [some 10] 10 1).getD 2 0 = 0 ∧
    (depth_map_snr pix3 [some 10] [some 20] [some 24] [some 10] 10 1).getD 4 0 = 0 ∧
    (depth_map_snr pix3 [some 10] [some 20] [some 24] [some 10] 10 1).getD 5 0 = 0 ∧
    (depth_map_snr pix3 [some 10] [some 20] [some 24] [some 10] 10 1).getD 6 0 = 0 ∧
    (depth_map_snr pix3 [some 10] [some 20] [some 24] [some 10] 10 1).getD 7 0 = 0 ∧
    (depth_map_snr pix3 [some 10] [some 20] [some 24] [some 10] 10 1).getD 8 0 = 0 ∧
    (depth_map_snr pix3 [some 10] [some 20] [some 24] [some 10] 10 1).getD 9 0 = 0 ∧
    (depth_map_snr pix3 [some 10] [some 20] [some 24] [some 10] 10 1).getD 10 0 = 0 ∧
    (depth_map_snr pix3 [some 10] [some 20] [some 24] [some 10] 10 1).getD 11 0 = 0 ∧
    (3499/145 : ℚ) ≠ 241/10 ∧
    |bin_centers 9 - 24| < |(3499/145 : ℚ) - 24| := by
  have hlen : (depth_map_snr pix3 [some 10] [some 20] [some 24] [some 10] 10 1).length = 12 := by
    rw [depth_map_snr_len]
    norm_num
  have h3 : (depth_map_snr pix3 [some 10] [some 20] [some 24] [some 10] 10 1).getD 3 0 =
      3499/145 := by
    rw [depth_map_snr_getD, if_pos (by norm_num), rowsAt_c6, if_pos (by simp),
      pixelDepth_c6]
    norm_num [bin_centers, linspace]
  have habs : |bin_centers 9 - 24| < |(3499/145 : ℚ) - 24| := by
    rw [show bin_centers 9 - 24 = -(9/145) from by norm_num [bin_centers, linspace],
      show (3499/145 : ℚ) - 24 = 19/145 from by norm_num, abs_neg,
      abs_of_nonneg (by norm_num : (0:ℚ) ≤ 9/145),
      abs_of_nonneg (by norm_num : (0:ℚ) ≤ 19/145)]
    norm_num
  exact ⟨hlen, h3,
    entry_c6_other 0 (by norm_num), entry_c6_other 1 (by norm_num),
    entry_c6_other 2 (by norm_num), entry_c6_other 4 (by norm_num),
    entry_c6_other 5 (by norm_num), entry_c6_other 6 (by norm_num),
    entry_c6_other 7 (by norm_num), entry_c6_other 8 (by norm_num),
    entry_c6_other 9 (by norm_num), entry_c6_other 10 (by norm_num),
    entry_c6_other 11 (by norm_num), by norm_num, habs⟩

/-- Per-bin medians for the C4 counterexample row (magnitude 22.5, snr 7):
only bin 2 (the bin `[22.4, 22.6)` containing 22.5) has a defined median. -/
lemma median_table_c4 : ∀ b, b < 30 →
    median_snr [⟨some 10, some 20, some (45/2), some 7⟩] b =
      (if b = 2 then some 7 else none) := by
  intro b hb
  interval_cases b <;> with_unfolding_all decide

lemma rowsAt_c4 : rowsAt pix3 [some 10] [some 20] [some (45/2)] [some 7] 3 =
    [⟨some 10, some 20, some (45/2), some 7⟩] := by
  with_unfolding_all decide

/-- The candidate list for the C4 counterexample row. -/
lemma candidates_c4 : candidates 10 [⟨some 10, some 20, some (45/2), some 7⟩] =
    [(bin_centers 2, |(7:ℚ) - 10|)] := by
  rw [candidates_eq_table 10 _ _ median_table_c4, range_30_lit]
  norm_num [List.filterMap_cons]

lemma pixelDepth_c4 : pixelDepth 10 [⟨some 10, some 20, some (45/2), some 7⟩] =
    bin_centers 2 := by
  unfold pixelDepth
  rw [candidates_c4]
  simp [pickMinSnd]

/-- C4 counterexample: a single retained row with magnitude 22.5 and snr 7.
The only bin with a defined median is bin 2, whose center magnitude in the
30-bin partition of [22, 28) is 22.5 — but the assigned pixel depth is
`bin_centers 2 = 655/29 ≈ 22.586 ≠ 22.5`. -/
theorem depth_not_partition_center_concrete :
    median_snr (rowsAt pix3 [some 10] [some 20] [some (45/2)] [some 7] 3) 2 = some 7 ∧
    ((List.range 30).filterMap fun b =>
      median_snr (rowsAt pix3 [some 10] [some 20] [some (45/2)] [some 7] 3) b) = [7] ∧
    (depth_map_snr pix3 [some 10] [some 20] [some (45/2)] [some 7] 10 1).getD 3 0 = 655/29 ∧
    specBinCenter 2 = 45/2 ∧
    (655/29 : ℚ) ≠ 45/2 := by
  have h1 : median_snr (rowsAt pix3 [some 10] [some 20] [some (45/2)] [some 7] 3) 2 =
      some 7 := by
    rw [rowsAt_c4]
    with_unfolding_all decide
  have h2 : ((List.range 30).filterMap fun b =>
      median_snr (rowsAt pix3 [some 10] [some 20] [some (45/2)] [some 7] 3) b) = [7] := by
    rw [rowsAt_c4]
    rw [List.filterMap_congr fun a ha => median_table_c4 a (List.mem_range.mp ha)]
    rw [range_30_lit]
    decide
  have h3 : (depth_map_snr pix3 [some 10] [some 20] [some (45/2)] [some 7] 10 1).getD 3 0 =
      655/29 := by
    rw [depth_map_snr_getD, if_pos (by norm_num), rowsAt_c4, if_pos (by simp),
      pixelDepth_c4]
    norm_num [bin_centers, linspace]
  exact ⟨h1, h2, h3, by norm_num [specBinCenter], by norm_num⟩

/-- C4 (amended): for every pixel with at least one bin with a defined median
snr, the pixel's entry equals the `bin_centers` value of a bin `j` whose
defined median is closest in absolute difference to `snr_threshold` among all
bins with defined medians.  (The `bin_centers` value is the function's fixed
array entry for bin `j`, which differs from the bin's true center magnitude —
see the C2 bug.) -/
theorem depth_eq_bin_centers_of_closest_median (pixfn : RQ → RQ → ℕ)
    (ra dec mags snr : List RQ) (thr : ℚ) (nside p : ℕ)
    (hp : p < 12 * nside ^ 2)
    (hdef : ∃ b, b < 30 ∧ median_snr (rowsAt pixfn ra dec mags snr p) b ≠ none) :
    ∃ j mj, j < 30 ∧ median_snr (rowsAt pixfn ra dec mags snr p) j = some mj ∧
      (depth_map_snr pixfn ra dec mags snr thr nside).getD p 0 = bin_centers j ∧
      ∀ b m, b < 30 → median_snr (rowsAt pixfn ra dec mags snr p) b = some m →
        |mj - thr| ≤ |m - thr| := by
  rcases hdef with ⟨b0, hb0, hm0⟩
  rcases Option.ne_none_iff_exists'.mp hm0 with ⟨m0, hm0v⟩
  have hlen : 0 < (rowsAt pixfn ra dec mags snr p).length :=
    length_pos_of_median _ b0 hm0
  have hcmem : (bin_centers b0, |m0 - thr|) ∈
      candidates thr (rowsAt pixfn ra dec mags snr p) :=
    (mem_candidates _ _ _).mpr ⟨b0, hb0, m0, hm0v, rfl⟩
  cases hpick : pickMinSnd (candidates thr (rowsAt pixfn ra dec mags snr p)) with
  | none =>
    exfalso
    cases hcc : candidates thr (rowsAt pixfn ra dec mags snr p) with
    | nil => rw [hcc] at hcmem; cases hcmem
    | cons c t => rw [hcc] at hpick; exact pickMinSnd_cons_ne_none c t hpick
  | some c =>
    rcases (mem_candidates _ _ _).mp (pickMinSnd_mem _ _ hpick) with ⟨j, hj, mj, hmj, hceq⟩
    refine ⟨j, mj, hj, hmj, ?_, ?_⟩
    · rw [depth_map_snr_getD, if_pos hp, if_pos hlen]
      unfold pixelDepth
      rw [hpick, hceq]
    · intro b m hb hm
      have hle := pickMinSnd_le _ _ hpick (bin_centers b, |m - thr|)
        ((mem_candidates _ _ _).mpr ⟨b, hb, m, hm, rfl⟩)
      rw [hceq] at hle
      exact hle

/-- Witness for the amended C4 at the counterexample input. -/
theorem depth_eq_bin_centers_of_closest_median_witness :
    ∃ j mj, j < 30 ∧
      median_snr (rowsAt pix3 [some 10] [some 20] [some (45/2)] [some 7] 3) j = some mj ∧
      (depth_map_snr pix3 [some 10] [some 20] [some (45/2)] [some 7] 10 1).getD 3 0 =
        bin_centers j ∧
      ∀ b m, b < 30 →
        median_snr (rowsAt pix3 [some 10] [some 20] [some (45/2)] [some 7] 3) b = some m →
        |mj - 10| ≤ |m - 10| :=
  depth_eq_bin_centers_of_closest_median pix3 [some 10] [some 20] [some (45/2)] [some 7]
    10 1 3 (by norm_num)
    ⟨2, by norm_num, by rw [rowsAt_c4]; with_unfolding_all decide⟩

/-- C7: per-bin medians ignore NaN snr values — a NaN entry never changes
`nanmedian`; `nanmedian` is defined exactly when some non-NaN value is
present (so an empty or all-NaN bin has no defined median); and a pixel in
which no bin has a defined median gets depth exactly `0`. -/
theorem nanmedian_nan_policy :
    (∀ xs : List RQ, nanmedian (none :: xs) = nanmedian xs) ∧
    (∀ xs : List RQ, nanmedian xs ≠ none ↔ ∃ q : ℚ, some q ∈ xs) ∧
    (∀ (pixfn : RQ → RQ → ℕ) (ra dec mags snr : List RQ) (thr : ℚ) (nside p : ℕ),
      (∀ b, b < 30 → median_snr (rowsAt pixfn ra dec mags snr p) b = none) →
      (depth_map_snr pixfn ra dec mags snr thr nside).getD p 0 = 0) := by
  refine ⟨nanmedian_cons_none, nanmedian_ne_none_iff, ?_⟩
  intro pixfn ra dec mags snr thr nside p hmed
  rw [depth_map_snr_getD]
  by_cases hp : p < 12 * nside ^ 2
  · rw [if_pos hp]
    by_cases he : 0 < (rowsAt pixfn ra dec mags snr p).length
    · rw [if_pos he]
      have hc : candidates thr (rowsAt pixfn ra dec mags snr p) = [] := by
        cases hcc : candidates thr (rowsAt pixfn ra dec mags snr p) with
        | nil => rfl
        | cons c t =>
          have hmem : c ∈ candidates thr (rowsAt pixfn ra dec mags snr p) := by
            rw [hcc]
            exact List.mem_cons_self c t
          rcases (mem_candidates _ _ _).mp hmem with ⟨j, hj, m, hm, _⟩
          rw [hmed j hj] at hm
          cases hm
      unfold pixelDepth
      rw [hc]
      rfl
    · rw [if_neg he]
  · rw [if_neg hp]

/-- Witness for C7: a retained row whose magnitude and snr are both NaN
leaves every bin without a defined median, and the pixel depth is `0`. -/
theorem nanmedian_nan_policy_witness :
    (depth_map_snr pix3 [some 10] [some 20] [none] [none] 10 1).getD 3 0 = 0 :=
  nanmedian_nan_policy.2.2 pix3 [some 10] [some 20] [none] [none] 10 1 3
    (by intro b hb; interval_cases b <;> with_unfolding_all decide)

/-- Per-bin medians for the C10 tie-break rows (magnitudes 22.5 and 23.5,
snr 8 and 12): bins 2 and 7 have defined medians 8 and 12. -/
lemma median_table_c10 : ∀ c, c < 30 →
    median_snr [⟨some 10, some 20, some (45/2), some 8⟩,
      ⟨some 11, some 21, some (47/2), some 12⟩] c =
      (if c = 2 then some 8 else if c = 7 then some 12 else none) := by
  intro c hc
  interval_cases c <;> with_unfolding_all decide

lemma rowsAt_c10 : rowsAt pix3 [some 10, some 11] [some 20, some 21]
    [some (45/2), some (47/2)] [some 8, some 12] 3 =
    [⟨some 10, some 20, some (45/2), some 8⟩,
     ⟨some 11, some 21, some (47/2), some 12⟩] := by
  with_unfolding_all decide

/-- C10: the tie-break is deterministic toward the lowest bin index: if bin
`j` has a defined median whose distance to the threshold is minimal, and every
bin tying that distance has index at least `j`, the pixel's depth is
`bin_centers j` (and `bin_centers` is strictly increasing, so the lowest index
is the smallest center magnitude). -/
theorem depth_tie_break_lowest_bin (pixfn : RQ → RQ → ℕ) (ra dec mags snr : List RQ)
    (thr : ℚ) (nside p j : ℕ) (mj : ℚ)
    (hp : p < 12 * nside ^ 2) (hj : j < 30)
    (hmj : median_snr (rowsAt pixfn ra dec mags snr p) j = some mj)
    (hmin : ∀ b, b < 30 → ∀ m, median_snr (rowsAt pixfn ra dec mags snr p) b = some m →
      |mj - thr| ≤ |m - thr| ∧ (|m - thr| = |mj - thr| → j ≤ b)) :
    (depth_map_snr pixfn ra dec mags snr thr nside).getD p 0 = bin_centers j := by
  have hlen : 0 < (rowsAt pixfn ra dec mags snr p).length :=
    length_pos_of_median _ j (by rw [hmj]; exact Option.some_ne_none mj)
  rw [depth_map_snr_getD, if_pos hp, if_pos hlen]
  have hpick : pickMinSnd (candidates thr (rowsAt pixfn ra dec mags snr p)) =
      some (bin_centers j, |mj - thr|) := by
    unfold candidates
    rw [List.range_eq_range']
    apply pickMinSnd_filterMap_range' 30 0 _ j (bin_centers j, |mj - thr|)
      (Nat.zero_le j) (by omega) (by rw [hmj]; rfl)
    intro b hb1 hb2 cb hcb
    rw [Option.map_eq_some'] at hcb
    rcases hcb with ⟨m, hm, hcb⟩
    have hbm := hmin b (by omega) m hm
    rw [← hcb]
    exact ⟨hbm.1, fun h => hbm.2 h⟩
  unfold pixelDepth
  rw [hpick]

/-- Witness for C10: two bins (2 and 7) with medians 8 and 12 are equally far
from the threshold 10; the pixel depth is the lower bin's `bin_centers 2`. -/
theorem depth_tie_break_lowest_bin_witness :
    (depth_map_snr pix3 [some 10, some 11] [some 20, some 21]
      [some (45/2), some (47/2)] [some 8, some 12] 10 1).getD 3 0 = bin_centers 2 :=
  depth_tie_break_lowest_bin pix3 [some 10, some 11] [some 20, some 21]
    [some (45/2), some (47/2)] [some 8, some 12] 10 1 3 2 8
    (by norm_num) (by norm_num)
    (by rw [rowsAt_c10]; with_unfolding_all decide)
    (by
      intro b hb m hm
      rw [rowsAt_c10, median_table_c10 b hb] at hm
      by_cases h2 : b = 2
      · subst h2
        rw [if_pos rfl] at hm
        injection hm with hm2
        subst hm2
        exact ⟨le_refl _, fun _ => le_refl 2⟩
      · rw [if_neg h2] at hm
        by_cases h7 : b = 7
        · subst h7
          rw [if_pos rfl] at hm
          injection hm with hm2
          subst hm2
          constructor
          · with_unfolding_all decide
          · intro _
            norm_num
        · rw [if_neg h7] at hm
          cases hm)
